import Mathlib

/-!
Verification of the `Neopixel` driver class (`neopixel.py`) from the
pi_pico_neopixel repository, as a shallow embedding in Lean 4.

Modelling conventions:
* MicroPython `array("I")` buffers are `List Nat` whose stored words are
  reduced modulo 2^32 (the array stores the low 32 bits of the value).
* Python list/array indexing (including negative indices) is `pyGet`/`pySet`,
  returning `Except PyErr _`; an out-of-range index is `PyErr.indexError`.
* `str.index` is `strIndex`, failing with `PyErr.valueError` when the
  character is absent, as in Python.
* Python `//` and `>>` (arithmetic shift) on `Int` are floor division; for a
  positive divisor (65536 and 256 are the only divisors used) Lean's `Int`
  division `/` (`Int.ediv`) coincides with floor division, so `/` is used.
* Python `%` with a positive modulus agrees with Lean's `Int.emod` (`%`).
* `round(c * (b/255.0))` in `set_pixel`: the float computation is exact enough
  that it equals rounding the rational `c*b/255` to the nearest integer, and
  exact ties `.5` are impossible (`2*c*b` is even while an exact tie would
  need `c*b/255` to have fractional part 1/2, impossible as 255 is odd), so
  rounding is `(2*c*b + 255) / 510` in natural division; Python's
  round-half-to-even never differs on this input set.
* `int(x)` applied to the nonnegative float `r * 255 / brightness` truncates:
  it is natural-number division `(r * 255) / brightness` (the float quotient
  is accurate to ~1e-11 while the distance to the truncation boundary is at
  least 1/255, so the float truncation equals the exact one).
* The PIO state machine, `Pin`, and `sm.put` are hardware; `show()` is
  modelled as returning the word sequence handed to `sm.put`, namely the
  contents viewed by the `memoryview` captured in the constructor.  The
  aliasing between `self.pixels` and `self.mv` is modelled explicitly: the
  state keeps both contents plus a flag `mvAliased` recording whether the
  memoryview still views the object currently bound to `self.pixels`
  (in-place writes by `set_pixel` are seen through the view while aliased;
  `rotate_left`, `rotate_right` and `clear` rebind `self.pixels` to a newly
  built array and so break the aliasing without changing the view).
-/

deriving instance DecidableEq for Except

/-- Python exception kinds relevant to this module. -/
inductive PyErr where
  | indexError : PyErr
  | valueError : PyErr
deriving DecidableEq, Repr

/-- Constant 2^32: MicroPython `array("I")` keeps the low 32 bits of each stored word. -/
def WORD_MOD : Nat := 4294967296

/-- Store an `Int` into an `array("I")` slot: low 32 bits. -/
def wrap32 (v : Int) : Nat := (v % (WORD_MOD : Int)).toNat

/-- Normalize a Python index against a length: negative indices count from the
end; `none` when out of range. -/
def pyNorm (len : Nat) (i : Int) : Option Nat :=
  let j : Int := if i < 0 then i + len else i
  if 0 ≤ j ∧ j < len then some j.toNat else none

/-- Python `l[i]` on an `array("I")`. -/
def pyGet (l : List Nat) (i : Int) : Except PyErr Nat :=
  match pyNorm l.length i with
  | some j => .ok (l.getD j 0)
  | none => .error .indexError

/-- Python `l[i] = v` on an `array("I")` (stores the low 32 bits). -/
def pySet (l : List Nat) (i : Int) (v : Nat) : Except PyErr (List Nat) :=
  match pyNorm l.length i with
  | some j => .ok (l.set j (v % WORD_MOD))
  | none => .error .indexError

/-- Python `s.index(c)` on a string: index of the first occurrence, or
`ValueError`. -/
def strIndex (s : List Char) (c : Char) : Except PyErr Nat :=
  match s.indexOf? c with
  | some i => .ok i
  | none => .error .valueError

/-- Python `x << s` for `x : Nat`; a negative shift count raises
`ValueError`. -/
def pyShl (x : Nat) (s : Int) : Except PyErr Nat :=
  if s < 0 then .error .valueError else .ok (x <<< s.toNat)

/-- Python `x >> s` for `x : Nat`; a negative shift count raises
`ValueError`. -/
def pyShr (x : Nat) (s : Int) : Except PyErr Nat :=
  if s < 0 then .error .valueError else .ok (x >>> s.toNat)

/-- Python `l[n:]` on a list (clamping slice semantics). -/
def pySliceFrom (l : List Nat) (n : Int) : List Nat :=
  let len : Int := l.length
  let s := if n < 0 then max (n + len) 0 else min n len
  l.drop s.toNat

/-- Python `l[:n]` on a list (clamping slice semantics). -/
def pySliceTo (l : List Nat) (n : Int) : List Nat :=
  let len : Int := l.length
  let s := if n < 0 then max (n + len) 0 else min n len
  l.take s.toNat

/-- The slice objects the library itself builds and passes to `set_pixel`:
`slice_maker[p1:p2+1]` in `set_pixel_line` and `slice_maker[:]` in `fill`.
Both have step 1 (`None`). -/
structure PySlice where
  start : Option Int
  stop : Option Int
deriving DecidableEq, Repr

/-- One endpoint of `slice.indices(len)` for step 1: clamp into `[0, len]`. -/
def sliceClamp (len : Int) (dflt : Int) (e : Option Int) : Int :=
  match e with
  | none => dflt
  | some s => if s < 0 then max (s + len) 0 else min s len

/-- Computes `range(*slc.indices(len))` for a step-1 slice: the indices the `for` loop
in `set_pixel` visits. -/
def sliceIndices (s : PySlice) (len : Int) : List Int :=
  let start := sliceClamp len 0 s.start
  let stop := sliceClamp len len s.stop
  (List.range (stop - start).toNat).map (fun k : Nat => start + (k : Int))

/-- Index argument `pixel_num` as accepted by `set_pixel`: an integer or a slice
(`type(pixel_num) is slice` distinguishes the two in the source). -/
inductive PixIx where
  | idx (i : Int)
  | slc (s : PySlice)
deriving DecidableEq, Repr

/-- Computes `round(c * (how_bright/255.0))` for `c, how_bright : Nat`: nearest integer
to `c*how_bright/255` (ties cannot occur, see the header comment). -/
def roundScale (c how_bright : Nat) : Nat := (2 * c * how_bright + 255) / 510

/-- The `Neopixel` object state: the data members assigned in `__init__`
(hardware members `sm` excluded), plus the explicit aliasing flag for the
`memoryview` (see header comment). -/
structure Neopixel where
  mode : String
  W_in_mode : Bool
  shift : Int × Int × Int × Int
  num_leds : Int
  brightnessvalue : Nat
  offset : Nat
  pixels : List Nat
  mv : List Nat
  mvAliased : Bool
deriving DecidableEq, Repr

/-- Constructor `Neopixel.__init__(num_leds, state_machine, pin, mode)`: the
`state_machine` and `pin` arguments only configure the PIO hardware and are
omitted.  Shift amounts follow the index-XOR-3 scheme of the source; in the
three-letter branch they are `((mode.index(X) ^ 3) - 1) * 8`, which can be
negative for malformed modes, hence `Int`. -/
def Neopixel.init (num_leds : Int) (mode : String := "RGB") : Except PyErr Neopixel := do
  let m := mode.data
  let wIn := m.contains 'W'
  let shift ← if wIn then do
      let iR ← strIndex m 'R'
      let iG ← strIndex m 'G'
      let iB ← strIndex m 'B'
      let iW ← strIndex m 'W'
      pure ((((iR ^^^ 3 : Nat) : Int)) * 8, (((iG ^^^ 3 : Nat) : Int)) * 8,
            (((iB ^^^ 3 : Nat) : Int)) * 8, (((iW ^^^ 3 : Nat) : Int)) * 8)
    else do
      let iR ← strIndex m 'R'
      let iG ← strIndex m 'G'
      let iB ← strIndex m 'B'
      pure ((((iR ^^^ 3 : Nat) : Int) - 1) * 8, (((iG ^^^ 3 : Nat) : Int) - 1) * 8,
            (((iB ^^^ 3 : Nat) : Int) - 1) * 8, (0 : Int))
  let bpp : Int := if wIn then 4 else 3
  let byte_count := bpp * num_leds
  let bit_count := byte_count * 8
  -- padding_count = -byte_count % 4 is computed in the source but never used
  -- pixels = array("I"); pixels.append(bit_count - 1); offset = len(pixels);
  -- pixels.extend([0]*num_leds); pixels.append(3840); mv = memoryview(pixels)
  let pixels := [wrap32 (bit_count - 1)] ++ List.replicate num_leds.toNat 0 ++ [3840]
  pure { mode := mode, W_in_mode := wIn, shift := shift, num_leds := num_leds,
         brightnessvalue := 255, offset := 1, pixels := pixels,
         mv := pixels, mvAliased := true }

/-- Method `brightness()` with no argument: return the stored value. -/
def Neopixel.brightness (self : Neopixel) : Nat := self.brightnessvalue

/-- Method `brightness(b)` with an argument: clamp into `[1, 255]` and store. -/
def Neopixel.brightness_set (self : Neopixel) (b : Int) : Neopixel :=
  let b := if b < 1 then 1 else b
  let b := if b > 255 then 255 else b
  { self with brightnessvalue := b.toNat }

/-- Rebind `self.pixels` to `px` after an in-place element write: while the
memoryview still aliases the array, the write is seen through it as well. -/
def Neopixel.withPixelsInPlace (self : Neopixel) (px : List Nat) : Neopixel :=
  { self with pixels := px, mv := if self.mvAliased then px else self.mv }

/-- Method `set_pixel(pixel_num, rgb_w, how_bright)`.  `rgb_w` is a 3- or 4-tuple of
channel values (the claims only exercise in-range nonnegative channels and
brightness, so both are `Nat`).  The slice loop mutates the array in place;
its indices are always in range, so aborting on the first error (as `Except`
folding does) is equivalent to the Python loop. -/
def Neopixel.set_pixel (self : Neopixel) (pixel_num : PixIx) (rgb_w : List Nat)
    (how_bright : Option Nat := none) : Except PyErr Neopixel := do
  let hb := match how_bright with
    | none => self.brightness
    | some b => b
  let (sh_R, sh_G, sh_B, sh_W) := self.shift
  let red := roundScale (rgb_w.getD 0 0) hb
  let green := roundScale (rgb_w.getD 1 0) hb
  let blue := roundScale (rgb_w.getD 2 0) hb
  let white := if rgb_w.length = 4 ∧ self.W_in_mode then roundScale (rgb_w.getD 3 0) hb else 0
  -- pix_value = white << sh_W | blue << sh_B | red << sh_R | green << sh_G
  let tW ← pyShl white sh_W
  let tB ← pyShl blue sh_B
  let tR ← pyShl red sh_R
  let tG ← pyShl green sh_G
  let pix_value := ((tW ||| tB) ||| tR) ||| tG
  match pixel_num with
  | .slc s =>
      let px ← (sliceIndices s self.num_leds).foldlM
        (fun arr i => pySet arr (i + (self.offset : Int)) pix_value) self.pixels
      pure (self.withPixelsInPlace px)
  | .idx i => do
      let px ← pySet self.pixels (i + (self.offset : Int)) pix_value
      pure (self.withPixelsInPlace px)

/-- Method `get_pixel(pixel_num)`: unpack the stored word, extract each channel with
its shift and mask 255, and undo brightness with `int(ch * 255 / brightness)`
(truncating division).  Returns a 4-element list in W mode, else 3. -/
def Neopixel.get_pixel (self : Neopixel) (pixel_num : Int) : Except PyErr (List Nat) := do
  let balance ← pyGet self.pixels (pixel_num + (self.offset : Int))
  let (sh_R, sh_G, sh_B, sh_W) := self.shift
  let w ← if self.W_in_mode then do
      let t ← pyShr balance sh_W
      pure (t &&& 255)
    else pure 0
  let tB ← pyShr balance sh_B
  let b := tB &&& 255
  let tR ← pyShr balance sh_R
  let r := tR &&& 255
  let tG ← pyShr balance sh_G
  let g := tG &&& 255
  let red := r * 255 / self.brightness
  let green := g * 255 / self.brightness
  let blue := b * 255 / self.brightness
  if self.W_in_mode then
    pure [red, green, blue, w * 255 / self.brightness]
  else
    pure [red, green, blue]

/-- Method `set_pixel_line(pixel1, pixel2, rgb_w, how_bright)`: set the inclusive
range via a slice; does nothing when `pixel2 < pixel1`. -/
def Neopixel.set_pixel_line (self : Neopixel) (pixel1 pixel2 : Int) (rgb_w : List Nat)
    (how_bright : Option Nat := none) : Except PyErr Neopixel :=
  if pixel2 ≥ pixel1 then
    self.set_pixel (.slc ⟨some pixel1, some (pixel2 + 1)⟩) rgb_w how_bright
  else
    .ok self

/-- Method `rotate_left(num_of_pixels)`: `self.pixels = self.pixels[n:] + self.pixels[:n]`.
This rebinds `self.pixels` to a newly built array; the memoryview keeps
viewing the old one. -/
def Neopixel.rotate_left (self : Neopixel) (num_of_pixels : Option Int := none) : Neopixel :=
  let n := num_of_pixels.getD 1
  { self with pixels := pySliceFrom self.pixels n ++ pySliceTo self.pixels n,
              mvAliased := false }

/-- Method `rotate_right(num_of_pixels)`: negate the count and slice the same way. -/
def Neopixel.rotate_right (self : Neopixel) (num_of_pixels : Option Int := none) : Neopixel :=
  let n := num_of_pixels.getD 1
  let n := -1 * n
  { self with pixels := pySliceFrom self.pixels n ++ pySliceTo self.pixels n,
              mvAliased := false }

/-- Method `show()`: `self.sm.put(self.mv)` — the word sequence handed to the PIO
serializer is whatever the memoryview views. -/
def Neopixel.showWords (self : Neopixel) : List Nat := self.mv

/-- Method `fill(rgb_w, how_bright)`: `set_pixel(slice_maker[:], ...)`. -/
def Neopixel.fill (self : Neopixel) (rgb_w : List Nat)
    (how_bright : Option Nat := none) : Except PyErr Neopixel :=
  self.set_pixel (.slc ⟨none, none⟩) rgb_w how_bright

/-- Method `clear()`: `self.pixels = array("I", [0] * self.num_leds)` — a bare
`num_leds`-word array with no framing words; again a rebinding that the
memoryview does not follow. -/
def Neopixel.clear (self : Neopixel) : Neopixel :=
  { self with pixels := List.replicate self.num_leds.toNat 0,
              mvAliased := false }

/-- Lines 285-323 of `colorHSV`: everything after the `hue %= 65536`
normalization.  Python `//` and `>> 8` are floor division, which for the
positive divisors 65536 and 256 equals `Int` division `/`. -/
def hsvPipeline (hue sat val : Int) : Int × Int × Int :=
  let hue := (hue * 1530 + 32768) / 65536
  let rgb : Int × Int × Int :=
    if hue < 510 then
      if hue < 255 then (255, hue, 0) else (510 - hue, 255, 0)
    else if hue < 1020 then
      if hue < 765 then (0, 255, hue - 510) else (0, 1020 - hue, 255)
    else if hue < 1530 then
      if hue < 1275 then (hue - 1020, 0, 255) else (255, 0, 1530 - hue)
    else (255, 0, 0)
  let v1 := 1 + val
  let s1 := 1 + sat
  let s2 := 255 - sat
  (((((rgb.1 * s1) / 256) + s2) * v1) / 256,
   ((((rgb.2.1 * s1) / 256) + s2) * v1) / 256,
   ((((rgb.2.2 * s1) / 256) + s2) * v1) / 256)

/-- Method `colorHSV(hue, sat, val)`: a method on `Neopixel` in the source that does
not read `self`, embedded as a plain function.  The only normalization is
`if hue >= 65536: hue %= 65536`. -/
def Neopixel.colorHSV (hue sat val : Int) : Int × Int × Int :=
  if 65536 ≤ hue then hsvPipeline (hue % 65536) sat val
  else hsvPipeline hue sat val

/-- Returns `true` iff `e` is a successful read whose channels all agree with `c`
within plus or minus 1. -/
def withinOne (e : Except PyErr (List Nat)) (c : List Nat) : Bool :=
  match e with
  | .ok r => r.length == c.length &&
      (List.zip r c).all (fun p => p.1 ≤ p.2 + 1 && p.2 ≤ p.1 + 1)
  | .error _ => false

/-- Rounding to nearest with ties to even (Python's `round`), on `a / b`. -/
def roundHalfEven (a b : Nat) : Nat :=
  let q := a / b
  let r := a % b
  if 2 * r < b then q
  else if b < 2 * r then q + 1
  else if q % 2 = 0 then q else q + 1

/-- The spec's claimed read-back: like `get_pixel` but with
`component = round(extracted * 255 / currentBrightness)` (Python `round`,
nearest/ties-to-even) in place of the truncating `int(...)`.  This definition
follows the spec's words, for comparison against `get_pixel` from the
source. -/
def Neopixel.get_pixel_specRound (self : Neopixel) (pixel_num : Int) :
    Except PyErr (List Nat) := do
  let balance ← pyGet self.pixels (pixel_num + (self.offset : Int))
  let (sh_R, sh_G, sh_B, sh_W) := self.shift
  let w ← if self.W_in_mode then do
      let t ← pyShr balance sh_W
      pure (t &&& 255)
    else pure 0
  let tB ← pyShr balance sh_B
  let b := tB &&& 255
  let tR ← pyShr balance sh_R
  let r := tR &&& 255
  let tG ← pyShr balance sh_G
  let g := tG &&& 255
  let red := roundHalfEven (r * 255) self.brightness
  let green := roundHalfEven (g * 255) self.brightness
  let blue := roundHalfEven (b * 255) self.brightness
  if self.W_in_mode then
    pure [red, green, blue, roundHalfEven (w * 255) self.brightness]
  else
    pure [red, green, blue]

/-- Structural invariant established by the constructor: the stored offset is
1, the backing array holds header + `num_leds` live words + trailer, and
there is at least one LED. -/
def BufInv (s : Neopixel) : Prop :=
  s.offset = 1 ∧ s.pixels.length = s.num_leds.toNat + 2 ∧ 1 ≤ s.num_leds

/-- All four shift amounts are nonnegative (true for every well-formed mode
string). -/
def ShNonneg (s : Neopixel) : Prop :=
  0 ≤ s.shift.1 ∧ 0 ≤ s.shift.2.1 ∧ 0 ≤ s.shift.2.2.1 ∧ 0 ≤ s.shift.2.2.2

/-- The packed word `set_pixel` computes (meaningful when the shift amounts
are nonnegative): `white << sh_W | blue << sh_B | red << sh_R | green << sh_G`
with each channel scaled by `round(ch * how_bright / 255)`. -/
def pixVal (s : Neopixel) (c : List Nat) (hb : Nat) : Nat :=
  let red := roundScale (c.getD 0 0) hb
  let green := roundScale (c.getD 1 0) hb
  let blue := roundScale (c.getD 2 0) hb
  let white := if c.length = 4 ∧ s.W_in_mode then roundScale (c.getD 3 0) hb else 0
  ((white <<< s.shift.2.2.2.toNat ||| blue <<< s.shift.2.2.1.toNat) |||
      red <<< s.shift.1.toNat) ||| green <<< s.shift.2.1.toNat

/-- The `(R, G, B, W)` shift tuples produced by the six valid three-letter
mode strings (RGB, RBG, GRB, GBR, BRG, BGR). -/
def shift3Perms : List (Int × Int × Int × Int) :=
  [(16, 8, 0, 0), (16, 0, 8, 0), (8, 16, 0, 0), (0, 16, 8, 0), (8, 0, 16, 0), (0, 8, 16, 0)]

/-- The `(R, G, B, W)` shift tuples produced by the 24 valid four-letter mode
strings (each an ordering of R, G, B, W): all permutations of
`(24, 16, 8, 0)`. -/
def shift4Perms : List (Int × Int × Int × Int) :=
  [(24, 16, 8, 0), (24, 16, 0, 8), (24, 8, 16, 0), (24, 8, 0, 16),
   (24, 0, 16, 8), (24, 0, 8, 16), (16, 24, 8, 0), (16, 24, 0, 8),
   (16, 8, 24, 0), (16, 8, 0, 24), (16, 0, 24, 8), (16, 0, 8, 24),
   (8, 24, 16, 0), (8, 24, 0, 16), (8, 16, 24, 0), (8, 16, 0, 24),
   (8, 0, 24, 16), (8, 0, 16, 24), (0, 24, 16, 8), (0, 24, 8, 16),
   (0, 16, 24, 8), (0, 16, 8, 24), (0, 8, 24, 16), (0, 8, 16, 24)]

/-- The same 24 shift tuples as natural numbers (the shift counts actually
used once `Int.toNat` is applied). -/
def natShift4Perms : List (Nat × Nat × Nat × Nat) :=
  [(24, 16, 8, 0), (24, 16, 0, 8), (24, 8, 16, 0), (24, 8, 0, 16),
   (24, 0, 16, 8), (24, 0, 8, 16), (16, 24, 8, 0), (16, 24, 0, 8),
   (16, 8, 24, 0), (16, 8, 0, 24), (16, 0, 24, 8), (16, 0, 8, 24),
   (8, 24, 16, 0), (8, 24, 0, 16), (8, 16, 24, 0), (8, 16, 0, 24),
   (8, 0, 24, 16), (8, 0, 16, 24), (0, 24, 16, 8), (0, 24, 8, 16),
   (0, 16, 24, 8), (0, 16, 8, 24), (0, 8, 24, 16), (0, 8, 16, 24)]


/-- C1: the claim says `rotate_left`/`rotate_right` cyclically shift only the
`numLeds` live pixel words, leaving the bit-count header and the reset-delay
trailer in place.  The code instead rotates the whole backing array: on a
fresh 3-LED RGB buffer `[71, 0, 0, 0, 3840]`, `rotate_left(1)` produces
`[0, 0, 0, 3840, 71]` (header 71 moved to the end, trailer 3840 into the live
area) and `rotate_right(1)` produces `[3840, 71, 0, 0, 0]`. -/
theorem C1_rotate_moves_framing :
    (Neopixel.init 3 "RGB").map (fun s => s.pixels) = .ok [71, 0, 0, 0, 3840] ∧
    (Neopixel.init 3 "RGB").map (fun s => (s.rotate_left (some 1)).pixels)
      = .ok [0, 0, 0, 3840, 71] ∧
    (Neopixel.init 3 "RGB").map (fun s => (s.rotate_right (some 1)).pixels)
      = .ok [3840, 71, 0, 0, 0] := by decide

/-- C3: the claim says that after `clear()` every pixel word is zero and every
`get_pixel(i)` with `i` in `[0, numLeds)` succeeds returning zero.  The code
rebinds `self.pixels` to a bare `numLeds`-word array with no header/trailer,
so on a 2-LED buffer the array becomes `[0, 0]` and `get_pixel(1)` (which
reads physical index `1 + offset = 2`) raises `IndexError`. -/
theorem C3_clear_breaks_buffer :
    (Neopixel.init 2 "RGB").map (fun s => s.clear.pixels) = .ok [0, 0] ∧
    (Neopixel.init 2 "RGB").bind (fun s => s.clear.get_pixel 1)
      = .error .indexError := by decide

/-- C2 counterexample: on a 2-LED RGB buffer, index 2 is outside
`[0, numLeds)`, yet `set_pixel(2, (255,0,0))` does not raise `IndexError`: it
silently overwrites the reset-delay trailer word (3840 becomes 0xFF0000). -/
theorem C2_ce_set_out_of_range_no_error :
    ((Neopixel.init 2 "RGB").bind (fun s => s.set_pixel (.idx 2) [255, 0, 0] none)).map
        (fun s => s.pixels) = .ok [47, 0, 0, 16711680] ∧
    ((Neopixel.init 2 "RGB").bind (fun s => s.set_pixel (.idx 2) [255, 0, 0] none)).isOk
      = true := by decide

/-- C4 counterexample: with brightness 1 held fixed across both calls (1 is in
the claim's range `[1,255]`), `set_pixel(0, (100,0,0))` stores
`round(100*1/255) = 0` and `get_pixel(0)` returns `(0,0,0)` — off by 100,
far outside the claimed plus-or-minus-1 bound. -/
theorem C4_ce_brightness_one :
    (Neopixel.init 1 "RGB").bind (fun s =>
        ((s.brightness_set 1).set_pixel (.idx 0) [100, 0, 0] none).bind
          (fun s2 => s2.get_pixel 0)) = .ok [0, 0, 0] ∧
    withinOne ((Neopixel.init 1 "RGB").bind (fun s =>
        ((s.brightness_set 1).set_pixel (.idx 0) [100, 0, 0] none).bind
          (fun s2 => s2.get_pixel 0))) [100, 0, 0] = false := by decide

/-- C5 counterexample: with brightness 2, store `(128,0,0)` (packed word
`1 <<< 16`).  The code returns `int(1*255/2) = 127`; the spec's formula
`round(1*255/2) = round(127.5) = 128`.  So `get_pixel` truncates rather than
rounds. -/
theorem C5_ce_truncation_not_rounding :
    (Neopixel.init 1 "RGB").bind (fun s =>
        ((s.brightness_set 2).set_pixel (.idx 0) [128, 0, 0] none).bind
          (fun s2 => s2.get_pixel 0)) = .ok [127, 0, 0] ∧
    (Neopixel.init 1 "RGB").bind (fun s =>
        ((s.brightness_set 2).set_pixel (.idx 0) [128, 0, 0] none).bind
          (fun s2 => s2.get_pixel_specRound 0)) = .ok [128, 0, 0] ∧
    ([127, 0, 0] : List Nat) ≠ [128, 0, 0] := by decide

/-- C6 counterexample: no `ConfigurationError` exists in the code; the
constructor performs no validation.  Mode "RGBX" (wrong length, letter outside
RGBW) constructs successfully, and so does `numLeds = 0`. -/
theorem C6_ce_no_validation :
    (Neopixel.init 1 "RGBX").isOk = true ∧
    (Neopixel.init 0 "RGB").isOk = true := by decide

/-- C6 amended: construction is only rejected — with `ValueError` from
`str.index` — when the mode string lacks one of the letters that are looked
up (R, G, B, and W when 'W' occurs); wrong length, duplicate letters, foreign
letters, or `numLeds <= 0` are all accepted (for `numLeds <= 0` the 32-bit
header word simply wraps). -/
theorem C6_amended_no_configuration_error :
    (Neopixel.init 1 "RGBX").isOk = true ∧
    (Neopixel.init 1 "RRGB").isOk = true ∧
    (Neopixel.init 0 "RGB").isOk = true ∧
    (Neopixel.init (-2) "RGB").isOk = true ∧
    Neopixel.init 1 "QGB" = .error .valueError ∧
    Neopixel.init 1 "RGQ" = .error .valueError ∧
    Neopixel.init 1 "WGB" = .error .valueError := by decide

/-- C8 counterexample: for mode "GRB" the resolver computes
`shift = (R, G, B, W) = (8, 16, 0, 0)`, not the claimed
`shift_R = 16, shift_G = 0, shift_B = 8`; and `fill((255,0,0))` at brightness
255 makes every live word `0x0000FF00`, not `0x00FF0000`. -/
theorem C8_ce_shifts_differ :
    (Neopixel.init 8 "GRB").map (fun s => s.shift) = .ok (8, 16, 0, 0) ∧
    ((8 : Int), (16 : Int), (0 : Int)) ≠ ((16 : Int), (0 : Int), (8 : Int)) ∧
    ((Neopixel.init 8 "GRB").bind (fun s => s.fill [255, 0, 0] none)).map
        (fun s => s.pixels)
      = .ok [191, 65280, 65280, 65280, 65280, 65280, 65280, 65280, 65280, 3840] ∧
    (65280 : Nat) ≠ 16711680 := by decide

/-- C8 amended: for an 8-LED mode-"GRB" buffer the resolver yields
`shift_R = 8, shift_G = 16, shift_B = 0`, and `fill((255,0,0))` at brightness
255 makes every one of the 8 live pixel words equal `0x0000FF00`. -/
theorem C8_amended_grb_fill :
    (Neopixel.init 8 "GRB").map (fun s => s.shift) = .ok (8, 16, 0, 0) ∧
    ((Neopixel.init 8 "GRB").bind (fun s => s.fill [255, 0, 0] none)).map
        (fun s => (s.pixels.drop s.offset).take 8)
      = .ok (List.replicate 8 0x0000FF00) := by decide

/-- C7 counterexample: the code reduces `hue` modulo 65536 only when
`hue >= 65536`; a negative hue is passed through unreduced.  At
`hue = -32768` the result is `(255, -765, 0)` while the Euclidean residue
32768 gives `(0, 255, 255)`. -/
theorem C7_ce_negative_hue :
    Neopixel.colorHSV (-32768) 255 255 = (255, -765, 0) ∧
    Neopixel.colorHSV ((-32768 : Int) % 65536) 255 255 = (0, 255, 255) ∧
    ((255 : Int), (-765 : Int), (0 : Int)) ≠ ((0 : Int), (255 : Int), (255 : Int)) := by
  decide

/-- C7 amended: the code reduces `hue` modulo 65536 only when `hue >= 65536`;
for every nonnegative hue the result agrees with reducing hue modulo 65536
first, `colorHSV(65536,255,255) = colorHSV(0,255,255)`, and
`colorHSV(0,255,255) = (255,0,0)`.  (Negative hue is NOT reduced, see the
counterexample.) -/
theorem C7_amended_hue_wrap :
    (∀ hue sat val : Int, 0 ≤ hue →
      Neopixel.colorHSV hue sat val = Neopixel.colorHSV (hue % 65536) sat val) ∧
    Neopixel.colorHSV 65536 255 255 = Neopixel.colorHSV 0 255 255 ∧
    Neopixel.colorHSV 0 255 255 = (255, 0, 0) := by
  refine ⟨?_, by decide, by decide⟩
  intro hue sat val h0
  unfold Neopixel.colorHSV
  by_cases h : (65536 : Int) ≤ hue
  · rw [if_pos h]
    have hm : (0 : Int) ≤ hue % 65536 := Int.emod_nonneg hue (by norm_num)
    have hlt : hue % 65536 < 65536 := Int.emod_lt_of_pos hue (by norm_num)
    rw [if_neg (by omega)]
  · rw [if_neg h]
    have he : hue % 65536 = hue := Int.emod_eq_of_lt h0 (by omega)
    rw [he, if_neg h]

/-- Witness for C7: a concrete overlarge hue wraps. -/
theorem C7_amended_hue_wrap_witness :
    Neopixel.colorHSV 70000 3 4 = Neopixel.colorHSV ((70000 : Int) % 65536) 3 4 :=
  C7_amended_hue_wrap.1 70000 3 4 (by norm_num)

/-- Channel scaling step of `colorHSV`: for a base channel `x` in `[0,255]`
and `sat`, `val` in `[0,255]`, the scaled value stays in `[0,255]`. -/
theorem hsvScale_bounds (x sat val : Int) (hx0 : 0 ≤ x) (hx1 : x ≤ 255)
    (hs0 : 0 ≤ sat) (hs1 : sat ≤ 255) (hv0 : 0 ≤ val) (hv1 : val ≤ 255) :
    0 ≤ (x * (1 + sat) / 256 + (255 - sat)) * (1 + val) / 256 ∧
      (x * (1 + sat) / 256 + (255 - sat)) * (1 + val) / 256 ≤ 255 := by
  have ht0 : 0 ≤ x * (1 + sat) := mul_nonneg hx0 (by omega)
  have ht1 : x * (1 + sat) ≤ 255 + 255 * sat := by
    have h := mul_le_mul_of_nonneg_right hx1 (show (0 : Int) ≤ 1 + sat by omega)
    nlinarith
  have hq2 : x * (1 + sat) / 256 ≤ sat := by
    generalize hgen : x * (1 + sat) = t at ht0 ht1
    omega
  have hq0 : 0 ≤ x * (1 + sat) / 256 := Int.ediv_nonneg ht0 (by norm_num)
  have hu0 : 0 ≤ (x * (1 + sat) / 256 + (255 - sat)) * (1 + val) :=
    mul_nonneg (by omega) (by omega)
  have hu1 : (x * (1 + sat) / 256 + (255 - sat)) * (1 + val) ≤ 255 * 256 :=
    mul_le_mul (by omega) (by omega) (by omega) (by norm_num)
  refine ⟨Int.ediv_nonneg hu0 (by norm_num), ?_⟩
  generalize hgen : (x * (1 + sat) / 256 + (255 - sat)) * (1 + val) = u at hu0 hu1
  omega

/-- Bounds for the post-normalization part of `colorHSV`: with the mapped hue
argument in `[0, 65535]` all three components are in `[0, 255]`. -/
theorem hsvPipeline_bounds (hue sat val : Int) (h0 : 0 ≤ hue) (h1 : hue ≤ 65535)
    (hs0 : 0 ≤ sat) (hs1 : sat ≤ 255) (hv0 : 0 ≤ val) (hv1 : val ≤ 255) :
    0 ≤ (hsvPipeline hue sat val).1 ∧ (hsvPipeline hue sat val).1 ≤ 255 ∧
    0 ≤ (hsvPipeline hue sat val).2.1 ∧ (hsvPipeline hue sat val).2.1 ≤ 255 ∧
    0 ≤ (hsvPipeline hue sat val).2.2 ∧ (hsvPipeline hue sat val).2.2 ≤ 255 := by
  have hh0 : 0 ≤ (hue * 1530 + 32768) / 65536 := by omega
  have hh1 : (hue * 1530 + 32768) / 65536 ≤ 1530 := by omega
  simp only [hsvPipeline]
  split_ifs <;>
    dsimp only <;>
    exact ⟨(hsvScale_bounds _ sat val (by omega) (by omega) hs0 hs1 hv0 hv1).1,
           (hsvScale_bounds _ sat val (by omega) (by omega) hs0 hs1 hv0 hv1).2,
           (hsvScale_bounds _ sat val (by omega) (by omega) hs0 hs1 hv0 hv1).1,
           (hsvScale_bounds _ sat val (by omega) (by omega) hs0 hs1 hv0 hv1).2,
           (hsvScale_bounds _ sat val (by omega) (by omega) hs0 hs1 hv0 hv1).1,
           (hsvScale_bounds _ sat val (by omega) (by omega) hs0 hs1 hv0 hv1).2⟩

/-- C10: for every nonnegative hue and every `sat`, `val` in `[0,255]`, each
component of `colorHSV(hue, sat, val)` lies in `[0,255]`: the integer pipeline
`v1 = 1+val`, `s1 = 1+sat`, `s2 = 255-sat`,
`ch = (((ch*s1) >> 8) + s2) * v1 >> 8` neither underflows below 0 nor
overflows above 255. -/
theorem C10_colorHSV_components_in_range (hue sat val : Int) (h0 : 0 ≤ hue)
    (hs0 : 0 ≤ sat) (hs1 : sat ≤ 255) (hv0 : 0 ≤ val) (hv1 : val ≤ 255) :
    0 ≤ (Neopixel.colorHSV hue sat val).1 ∧ (Neopixel.colorHSV hue sat val).1 ≤ 255 ∧
    0 ≤ (Neopixel.colorHSV hue sat val).2.1 ∧ (Neopixel.colorHSV hue sat val).2.1 ≤ 255 ∧
    0 ≤ (Neopixel.colorHSV hue sat val).2.2 ∧ (Neopixel.colorHSV hue sat val).2.2 ≤ 255 := by
  unfold Neopixel.colorHSV
  split_ifs with h
  · refine hsvPipeline_bounds _ sat val (Int.emod_nonneg hue (by norm_num)) ?_ hs0 hs1 hv0 hv1
    have := Int.emod_lt_of_pos hue (show (0 : Int) < 65536 by norm_num)
    omega
  · exact hsvPipeline_bounds hue sat val h0 (by omega) hs0 hs1 hv0 hv1

/-- Witness for C10 at a concrete overlarge hue. -/
theorem C10_colorHSV_components_in_range_witness :
    0 ≤ (Neopixel.colorHSV 100000 200 10).1 ∧ (Neopixel.colorHSV 100000 200 10).1 ≤ 255 ∧
    0 ≤ (Neopixel.colorHSV 100000 200 10).2.1 ∧ (Neopixel.colorHSV 100000 200 10).2.1 ≤ 255 ∧
    0 ≤ (Neopixel.colorHSV 100000 200 10).2.2 ∧ (Neopixel.colorHSV 100000 200 10).2.2 ≤ 255 :=
  C10_colorHSV_components_in_range 100000 200 10 (by norm_num) (by norm_num) (by norm_num)
    (by norm_num) (by norm_num)

/-- Any state the constructor returns has its memoryview aliasing the pixel
array: `mv` views exactly `pixels`. -/
theorem init_mv_eq_pixels (nl : Int) (md : String) (s0 : Neopixel)
    (h : Neopixel.init nl md = .ok s0) : s0.mv = s0.pixels ∧ s0.mvAliased = true := by
  unfold Neopixel.init at h
  simp only [bind, Except.bind, pure, Except.pure] at h
  repeat' (split at h)
  all_goals first
    | (cases h; exact ⟨rfl, rfl⟩)
    | simp at h

/-- C9: `show()` transmits through the memoryview captured at construction;
`rotate_left`, `rotate_right` and `clear` rebind the pixel array without
rebuilding that memoryview.  Hence (i) those three operations never change
what `show()` hands to the serializer, (ii) at construction the view equals
the pixel array, and (iii) on any state whose view still aliases its pixel
array (as at construction), `show()` after a rotate or clear hands over the
pre-call buffer contents, not the rotated or cleared ones. -/
theorem C9_show_ignores_rotate_and_clear :
    (∀ (s : Neopixel) (n : Option Int),
      (s.rotate_left n).showWords = s.showWords ∧
      (s.rotate_right n).showWords = s.showWords ∧
      s.clear.showWords = s.showWords) ∧
    (∀ (nl : Int) (md : String) (s0 : Neopixel),
      Neopixel.init nl md = .ok s0 → s0.showWords = s0.pixels) ∧
    (∀ (s : Neopixel), s.mv = s.pixels → ∀ (n : Option Int),
      (s.rotate_left n).showWords = s.pixels ∧
      (s.rotate_right n).showWords = s.pixels ∧
      s.clear.showWords = s.pixels) := by
  refine ⟨fun s n => ⟨rfl, rfl, rfl⟩, ?_, ?_⟩
  · intro nl md s0 h
    exact (init_mv_eq_pixels nl md s0 h).1
  · intro s hmv n
    exact ⟨hmv, hmv, hmv⟩

/-- Witness for C9 on a concrete freshly constructed 2-LED buffer. -/
theorem C9_show_ignores_rotate_and_clear_witness :
    ((Neopixel.mk "RGB" false (16, 8, 0, 0) 2 255 1 [47, 0, 0, 3840]
        [47, 0, 0, 3840] true).rotate_left (some 1)).showWords
      = [47, 0, 0, 3840] :=
  ((C9_show_ignores_rotate_and_clear.2.2
    (Neopixel.mk "RGB" false (16, 8, 0, 0) 2 255 1 [47, 0, 0, 3840]
      [47, 0, 0, 3840] true) rfl (some 1)).1)

/-- Helper fact: `pyNorm` yields `none` exactly on Python-out-of-range indices. -/
lemma pyNorm_eq_none_iff (len : Nat) (i : Int) :
    pyNorm len i = none ↔ (i < -(len : Int) ∨ (len : Int) ≤ i) := by
  unfold pyNorm
  dsimp only
  split_ifs with h1 h2 <;> simp_all <;> omega

/-- Helper fact: `pyNorm` on an index already in `[0, len)`. -/
lemma pyNorm_valid (len : Nat) (i : Int) (h0 : 0 ≤ i) (h1 : i < (len : Int)) :
    pyNorm len i = some i.toNat := by
  unfold pyNorm
  dsimp only
  split_ifs with h2 h3 <;> first | rfl | (exfalso; omega)

/-- Helper fact: `pyGet` errors exactly on out-of-range indices. -/
lemma pyGet_err_iff (l : List Nat) (i : Int) :
    (pyGet l i).isOk = false ↔ (i < -(l.length : Int) ∨ (l.length : Int) ≤ i) := by
  unfold pyGet
  rw [← pyNorm_eq_none_iff]
  cases pyNorm l.length i <;> simp [Except.isOk, Except.toBool]

/-- Helper fact: `pyGet` can only fail with `IndexError`. -/
lemma pyGet_err_classify (l : List Nat) (i : Int) (e : PyErr)
    (h : pyGet l i = .error e) : e = .indexError := by
  unfold pyGet at h
  cases hn : pyNorm l.length i <;> rw [hn] at h <;> simp_all

/-- Helper fact: `pyGet` on a valid index. -/
lemma pyGet_valid (l : List Nat) (i : Int) (h0 : 0 ≤ i) (h1 : i < (l.length : Int)) :
    pyGet l i = .ok (l.getD i.toNat 0) := by
  unfold pyGet
  rw [pyNorm_valid _ _ h0 h1]

/-- Helper fact: `pySet` errors exactly on out-of-range indices. -/
lemma pySet_err_iff (l : List Nat) (i : Int) (v : Nat) :
    (pySet l i v).isOk = false ↔ (i < -(l.length : Int) ∨ (l.length : Int) ≤ i) := by
  unfold pySet
  rw [← pyNorm_eq_none_iff]
  cases pyNorm l.length i <;> simp [Except.isOk, Except.toBool]

/-- Helper fact: `pySet` can only fail with `IndexError`. -/
lemma pySet_err_classify (l : List Nat) (i : Int) (v : Nat) (e : PyErr)
    (h : pySet l i v = .error e) : e = .indexError := by
  unfold pySet at h
  cases hn : pyNorm l.length i <;> rw [hn] at h <;> simp_all

/-- Helper fact: `pySet` on a valid index. -/
lemma pySet_valid (l : List Nat) (i : Int) (v : Nat) (h0 : 0 ≤ i)
    (h1 : i < (l.length : Int)) :
    pySet l i v = .ok (l.set i.toNat (v % WORD_MOD)) := by
  unfold pySet
  rw [pyNorm_valid _ _ h0 h1]

/-- Reduction: `Except.ok a >>= f` reduces to `f a`. -/
lemma exc_ok_bind {e a b : Type} (x : a) (f : a → Except e b) :
    (Except.ok x >>= f) = f x := rfl

/-- Binding into `pure` after a computation is `Except.map`. -/
lemma exc_bind_pure_map {e a b : Type} (x : Except e a) (f : a → b) :
    (x >>= fun v => (pure (f v) : Except e b)) = x.map f := by
  cases x <;> rfl

/-- With nonnegative shift amounts, `set_pixel` at an integer index is the
single in-place store of the packed word at physical index `i + offset`. -/
lemma set_pixel_idx_eq (s : Neopixel) (i : Int) (c : List Nat) (hb : Option Nat)
    (hsh : ShNonneg s) :
    s.set_pixel (.idx i) c hb =
      (pySet s.pixels (i + (s.offset : Int)) (pixVal s c (hb.getD s.brightness))).map
        s.withPixelsInPlace := by
  obtain ⟨h1, h2, h3, h4⟩ := hsh
  unfold Neopixel.set_pixel pixVal pyShl
  cases hb <;>
  · dsimp only [Option.getD]
    rw [if_neg (not_lt.mpr h4), if_neg (not_lt.mpr h3), if_neg (not_lt.mpr h1),
      if_neg (not_lt.mpr h2)]
    rw [exc_ok_bind, exc_ok_bind, exc_ok_bind, exc_ok_bind, exc_bind_pure_map]

/-- With nonnegative shift amounts, `set_pixel` with a slice is the in-place
loop of stores over the slice's clamped index range. -/
lemma set_pixel_slc_eq (s : Neopixel) (sl : PySlice) (c : List Nat) (hb : Option Nat)
    (hsh : ShNonneg s) :
    s.set_pixel (.slc sl) c hb =
      ((sliceIndices sl s.num_leds).foldlM
        (fun arr j => pySet arr (j + (s.offset : Int)) (pixVal s c (hb.getD s.brightness)))
        s.pixels).map s.withPixelsInPlace := by
  obtain ⟨h1, h2, h3, h4⟩ := hsh
  unfold Neopixel.set_pixel pixVal pyShl
  cases hb <;>
  · dsimp only [Option.getD]
    rw [if_neg (not_lt.mpr h4), if_neg (not_lt.mpr h3), if_neg (not_lt.mpr h1),
      if_neg (not_lt.mpr h2)]
    rw [exc_ok_bind, exc_ok_bind, exc_ok_bind, exc_ok_bind, exc_bind_pure_map]

/-- With nonnegative shift amounts, a successful word read makes `get_pixel`
return the unpacked, truncated channels (4 of them in W mode, else 3). -/
lemma get_pixel_ok_eq (s : Neopixel) (i : Int) (w : Nat) (hsh : ShNonneg s)
    (hget : pyGet s.pixels (i + (s.offset : Int)) = .ok w) :
    s.get_pixel i = .ok (
      if s.W_in_mode then
        [((w >>> s.shift.1.toNat) &&& 255) * 255 / s.brightness,
         ((w >>> s.shift.2.1.toNat) &&& 255) * 255 / s.brightness,
         ((w >>> s.shift.2.2.1.toNat) &&& 255) * 255 / s.brightness,
         ((w >>> s.shift.2.2.2.toNat) &&& 255) * 255 / s.brightness]
      else
        [((w >>> s.shift.1.toNat) &&& 255) * 255 / s.brightness,
         ((w >>> s.shift.2.1.toNat) &&& 255) * 255 / s.brightness,
         ((w >>> s.shift.2.2.1.toNat) &&& 255) * 255 / s.brightness]) := by
  obtain ⟨h1, h2, h3, h4⟩ := hsh
  unfold Neopixel.get_pixel pyShr
  rw [hget, exc_ok_bind]
  cases hw : s.W_in_mode <;> simp only [hw] <;>
  · rw [if_neg (not_lt.mpr h3), if_neg (not_lt.mpr h1), if_neg (not_lt.mpr h2),
      if_neg (not_lt.mpr h4)]
    rfl

/-- Helper fact: `get_pixel` propagates a failed word read unchanged. -/
lemma get_pixel_err_eq (s : Neopixel) (i : Int) (e : PyErr)
    (hget : pyGet s.pixels (i + (s.offset : Int)) = .error e) :
    s.get_pixel i = .error e := by
  unfold Neopixel.get_pixel
  rw [hget]
  rfl

/-- Looping `pySet` over in-range indices succeeds and preserves the array
length (the slice loop of `set_pixel` never raises). -/
lemma foldlM_pySet_ok (v : Nat) (off : Int) (idxs : List Int) (arr : List Nat)
    (h : ∀ j ∈ idxs, 0 ≤ j + off ∧ j + off < (arr.length : Int)) :
    ∃ arr2, idxs.foldlM (fun a j => pySet a (j + off) v) arr = .ok arr2 ∧
      arr2.length = arr.length := by
  induction idxs generalizing arr with
  | nil => exact ⟨arr, rfl, rfl⟩
  | cons j t ih =>
    obtain ⟨hj0, hj1⟩ := h j (List.mem_cons_self j t)
    rw [List.foldlM_cons, pySet_valid arr (j + off) v hj0 hj1, exc_ok_bind]
    have hlen : (arr.set (j + off).toNat (v % WORD_MOD)).length = arr.length :=
      List.length_set arr _ _
    obtain ⟨a2, he, hl⟩ := ih (arr.set (j + off).toNat (v % WORD_MOD))
      (fun x hx => by rw [hlen]; exact h x (List.mem_cons_of_mem j hx))
    exact ⟨a2, he, hl.trans hlen⟩

/-- Helper fact: `sliceClamp` stays within `[0, len]` when its default does. -/
lemma sliceClamp_bounds (L d : Int) (e : Option Int) (hd0 : 0 ≤ d) (hd1 : d ≤ L) :
    0 ≤ sliceClamp L d e ∧ sliceClamp L d e ≤ L := by
  unfold sliceClamp
  cases e with
  | none => exact ⟨hd0, hd1⟩
  | some x =>
    dsimp only
    simp only [max_def, min_def]
    split_ifs <;> constructor <;> omega

/-- Every index generated for a step-1 slice lies in `[0, len)`. -/
lemma sliceIndices_mem (sl : PySlice) (L : Int) (hL : 0 ≤ L) :
    ∀ j ∈ sliceIndices sl L, 0 ≤ j ∧ j < L := by
  intro j hj
  unfold sliceIndices at hj
  simp only [List.mem_map, List.mem_range] at hj
  obtain ⟨k, hk, rfl⟩ := hj
  have hs := sliceClamp_bounds L 0 sl.start le_rfl hL
  have ht := sliceClamp_bounds L L sl.stop hL le_rfl
  omega

/-- Mapping a pure function over an `Except` does not change success. -/
lemma exc_map_isOk {e a b : Type} (f : a → b) (x : Except e a) :
    (x.map f).isOk = x.isOk := by
  cases x <;> rfl

/-- C2 amended: on a well-formed buffer, `get_pixel(i)` / `set_pixel(i, c)`
with an integer index fail — always with `IndexError` — exactly when the
shifted physical index `i + 1` falls outside the whole `(numLeds + 2)`-word
array under Python's negative-index rule, i.e. iff `i > numLeds` or
`i < -(numLeds + 3)`; in particular `i = numLeds` (trailer), `i = -1`
(header) and other in-window out-of-range indices silently access framing
words instead of raising.  Range forms (`set_pixel_line`, hence `fill`) clamp
their slice to the live range and never raise. -/
theorem C2_amended_index_behavior (s : Neopixel) (i : Int) (c : List Nat) (p1 p2 : Int)
    (hInv : BufInv s) (hsh : ShNonneg s) :
    ((s.get_pixel i).isOk = false ↔ (s.num_leds < i ∨ i < -(s.num_leds + 3))) ∧
    (∀ e, s.get_pixel i = .error e → e = .indexError) ∧
    ((s.set_pixel (.idx i) c none).isOk = false ↔ (s.num_leds < i ∨ i < -(s.num_leds + 3))) ∧
    (∀ e, s.set_pixel (.idx i) c none = .error e → e = .indexError) ∧
    (s.set_pixel_line p1 p2 c none).isOk = true := by
  obtain ⟨ho, hlen, hn⟩ := hInv
  have hlenI : (s.pixels.length : Int) = s.num_leds + 2 := by omega
  have hoI : ((s.offset : Int)) = 1 := by omega
  refine ⟨?_, ?_, ?_, ?_, ?_⟩
  · cases hres : pyGet s.pixels (i + (s.offset : Int)) with
    | error e =>
      rw [get_pixel_err_eq s i e hres]
      have hoob := (pyGet_err_iff s.pixels (i + (s.offset : Int))).mp (by rw [hres]; rfl)
      exact ⟨fun _ => by omega, fun _ => rfl⟩
    | ok w =>
      rw [get_pixel_ok_eq s i w hsh hres]
      have hinb : ¬(i + (s.offset : Int) < -(s.pixels.length : Int) ∨
          (s.pixels.length : Int) ≤ i + (s.offset : Int)) := by
        intro hcon
        have hbad := (pyGet_err_iff s.pixels (i + (s.offset : Int))).mpr hcon
        rw [hres] at hbad
        simp [Except.isOk, Except.toBool] at hbad
      constructor
      · intro hfalse
        simp [Except.isOk, Except.toBool] at hfalse
      · intro hcond
        exfalso
        omega
  · intro e he
    cases hres : pyGet s.pixels (i + (s.offset : Int)) with
    | error e2 =>
      rw [get_pixel_err_eq s i e2 hres] at he
      cases he
      exact pyGet_err_classify _ _ _ hres
    | ok w =>
      rw [get_pixel_ok_eq s i w hsh hres] at he
      cases he
  · rw [set_pixel_idx_eq s i c none hsh, exc_map_isOk, pySet_err_iff]
    omega
  · intro e he
    rw [set_pixel_idx_eq s i c none hsh] at he
    cases hps : pySet s.pixels (i + (s.offset : Int))
        (pixVal s c ((none : Option Nat).getD s.brightness)) with
    | error e2 =>
      rw [hps] at he
      cases he
      exact pySet_err_classify _ _ _ _ hps
    | ok px =>
      rw [hps] at he
      cases he
  · unfold Neopixel.set_pixel_line
    split_ifs with hp
    · rw [set_pixel_slc_eq s _ c none hsh]
      obtain ⟨arr2, he, _⟩ := foldlM_pySet_ok
        (pixVal s c ((none : Option Nat).getD s.brightness)) (s.offset : Int)
        (sliceIndices ⟨some p1, some (p2 + 1)⟩ s.num_leds) s.pixels
        (fun j hj => by
          have := sliceIndices_mem _ s.num_leds (by omega) j hj
          constructor <;> omega)
      rw [he]
      rfl
    · rfl

/-- Witness for C2 amended on a concrete 2-LED buffer at index 5 and the
clamped range 0..5. -/
theorem C2_amended_index_behavior_witness :
    (((Neopixel.mk "RGB" false (16, 8, 0, 0) 2 255 1 [47, 0, 0, 3840]
        [47, 0, 0, 3840] true).get_pixel 5).isOk = false ↔
      ((2 : Int) < 5 ∨ (5 : Int) < -(2 + 3))) ∧
    (∀ e, (Neopixel.mk "RGB" false (16, 8, 0, 0) 2 255 1 [47, 0, 0, 3840]
        [47, 0, 0, 3840] true).get_pixel 5 = .error e → e = .indexError) ∧
    (((Neopixel.mk "RGB" false (16, 8, 0, 0) 2 255 1 [47, 0, 0, 3840]
        [47, 0, 0, 3840] true).set_pixel (.idx 5) [1, 2, 3] none).isOk = false ↔
      ((2 : Int) < 5 ∨ (5 : Int) < -(2 + 3))) ∧
    (∀ e, (Neopixel.mk "RGB" false (16, 8, 0, 0) 2 255 1 [47, 0, 0, 3840]
        [47, 0, 0, 3840] true).set_pixel (.idx 5) [1, 2, 3] none = .error e →
      e = .indexError) ∧
    ((Neopixel.mk "RGB" false (16, 8, 0, 0) 2 255 1 [47, 0, 0, 3840]
        [47, 0, 0, 3840] true).set_pixel_line 0 5 [1, 2, 3] none).isOk = true :=
  C2_amended_index_behavior
    (Neopixel.mk "RGB" false (16, 8, 0, 0) 2 255 1 [47, 0, 0, 3840] [47, 0, 0, 3840] true)
    5 [1, 2, 3] 0 5 (by constructor <;> simp) (by refine ⟨?_, ?_, ?_, ?_⟩ <;> norm_num)

/-- C5 amended: `get_pixel` extracts each channel of the stored word with its
shift and mask 0xFF, then divides: `component = int(extracted * 255 /
brightness)` — truncating (floor) division, not `round(...)`; the result is a
3-tuple in 3-channel mode and a 4-tuple in 4-channel mode. -/
theorem C5_amended_truncating_unpack (s : Neopixel) (i : Int) (w : Nat)
    (hsh : ShNonneg s)
    (hget : pyGet s.pixels (i + (s.offset : Int)) = .ok w) :
    (s.W_in_mode = false →
      s.get_pixel i = .ok
        [((w >>> s.shift.1.toNat) &&& 255) * 255 / s.brightnessvalue,
         ((w >>> s.shift.2.1.toNat) &&& 255) * 255 / s.brightnessvalue,
         ((w >>> s.shift.2.2.1.toNat) &&& 255) * 255 / s.brightnessvalue]) ∧
    (s.W_in_mode = true →
      s.get_pixel i = .ok
        [((w >>> s.shift.1.toNat) &&& 255) * 255 / s.brightnessvalue,
         ((w >>> s.shift.2.1.toNat) &&& 255) * 255 / s.brightnessvalue,
         ((w >>> s.shift.2.2.1.toNat) &&& 255) * 255 / s.brightnessvalue,
         ((w >>> s.shift.2.2.2.toNat) &&& 255) * 255 / s.brightnessvalue]) := by
  have h := get_pixel_ok_eq s i w hsh hget
  constructor <;> intro hw <;> rw [h, hw] <;> simp [Neopixel.brightness]

/-- Witness for C5 amended: the brightness-2 buffer with stored word
`1 <<< 16` reads back as `(127, 0, 0)`. -/
theorem C5_amended_truncating_unpack_witness :
    ((Neopixel.mk "RGB" false (16, 8, 0, 0) 1 2 1 [23, 65536, 3840]
        [23, 65536, 3840] true).W_in_mode = false →
      (Neopixel.mk "RGB" false (16, 8, 0, 0) 1 2 1 [23, 65536, 3840]
        [23, 65536, 3840] true).get_pixel 0 = .ok [127, 0, 0]) ∧
    ((Neopixel.mk "RGB" false (16, 8, 0, 0) 1 2 1 [23, 65536, 3840]
        [23, 65536, 3840] true).W_in_mode = true →
      (Neopixel.mk "RGB" false (16, 8, 0, 0) 1 2 1 [23, 65536, 3840]
        [23, 65536, 3840] true).get_pixel 0 = .ok [127, 0, 0, 0]) :=
  C5_amended_truncating_unpack
    (Neopixel.mk "RGB" false (16, 8, 0, 0) 1 2 1 [23, 65536, 3840] [23, 65536, 3840] true)
    0 65536 (by refine ⟨?_, ?_, ?_, ?_⟩ <;> norm_num) (by rfl)

/-- Helper fact: `round(c * b/255)` stays within a byte for in-range inputs. -/
lemma roundScale_le (c b : Nat) (hc : c ≤ 255) (hb : b ≤ 255) :
    roundScale c b ≤ 255 := by
  unfold roundScale
  have h : 2 * c * b ≤ 2 * 255 * 255 := by
    calc 2 * c * b ≤ 2 * 255 * b := by
          have := Nat.mul_le_mul_right b (Nat.mul_le_mul_left 2 hc)
          simpa using this
      _ ≤ 2 * 255 * 255 := Nat.mul_le_mul_left _ hb
  omega

/-- Store-then-read of one channel: `int(round(c*b/255) * 255 / b)` equals
`c` within plus or minus 1 whenever the brightness `b` is at least 125
(integer check for `b = 125, 126`; a division-algebra argument for
`b >= 127`). -/
lemma chan_roundtrip (c b : Nat) (hc : c ≤ 255) (hb1 : 125 ≤ b) (hb2 : b ≤ 255) :
    (roundScale c b * 255) / b ≤ c + 1 ∧ c ≤ (roundScale c b * 255) / b + 1 := by
  rcases Nat.lt_or_ge b 127 with hb | hb
  · interval_cases b
    · revert c hc
      set_option maxRecDepth 4000 in decide
    · revert c hc
      set_option maxRecDepth 4000 in decide
  · unfold roundScale
    have h1 := Nat.div_add_mod (2 * c * b + 255) 510
    have h2 : (2 * c * b + 255) % 510 < 510 := Nat.mod_lt _ (by norm_num)
    have h3 := Nat.div_add_mod ((2 * c * b + 255) / 510 * 255) b
    have h4 : ((2 * c * b + 255) / 510 * 255) % b < b := Nat.mod_lt _ (by omega)
    constructor
    · by_contra hcon
      push_neg at hcon
      have h5 : b * (c + 2) ≤ b * ((2 * c * b + 255) / 510 * 255 / b) :=
        Nat.mul_le_mul_left b (by omega)
      have h6 : b * (c + 2) = b * c + 2 * b := by ring
      have h7 : 2 * c * b = 2 * (b * c) := by ring
      rw [h6] at h5
      rw [h7] at h1
      generalize hq : (2 * c * b + 255) / 510 * 255 / b = q at h3 h5
      generalize hr2 : (2 * c * b + 255) / 510 * 255 % b = r2 at h3 h4
      generalize hw : (2 * c * b + 255) / 510 = w at h1 h3
      generalize hr1 : (2 * c * b + 255) % 510 = r1 at h1 h2
      generalize hX : b * c = X at h1 h5
      generalize hY : b * q = Y at h3 h5
      omega
    · by_contra hcon
      push_neg at hcon
      have h5 : b * ((2 * c * b + 255) / 510 * 255 / b + 2) ≤ b * c :=
        Nat.mul_le_mul_left b (by omega)
      have h6 : b * ((2 * c * b + 255) / 510 * 255 / b + 2)
          = b * ((2 * c * b + 255) / 510 * 255 / b) + 2 * b := by ring
      have h7 : 2 * c * b = 2 * (b * c) := by ring
      rw [h6] at h5
      rw [h7] at h1
      generalize hq : (2 * c * b + 255) / 510 * 255 / b = q at h3 h5
      generalize hr2 : (2 * c * b + 255) / 510 * 255 % b = r2 at h3 h4
      generalize hw : (2 * c * b + 255) / 510 = w at h1 h3
      generalize hr1 : (2 * c * b + 255) % 510 = r1 at h1 h2
      generalize hX : b * c = X at h1 h5
      generalize hY : b * q = Y at h3 h5
      omega

/-- Disjoint byte fields combined with `|||` add up. -/
lemma bytes_pack (x y z : Nat) (hy : y ≤ 255) (hz : z ≤ 255) :
    x <<< 16 ||| (y <<< 8 ||| z) = x * 65536 + (y * 256 + z) := by
  have h1 : y <<< 8 ||| z = 2 ^ 8 * y + z := by
    rw [Nat.shiftLeft_eq, mul_comm]
    exact (Nat.mul_add_lt_is_or (by omega) y).symm
  have h16 : 2 ^ 8 * y + z < 2 ^ 16 := by omega
  rw [h1, Nat.shiftLeft_eq, mul_comm x (2 ^ 16), ← Nat.mul_add_lt_is_or h16 x]
  omega

/-- Byte extraction from a packed three-byte word. -/
lemma bytes_extract (x y z : Nat) (hx : x ≤ 255) (hy : y ≤ 255) (hz : z ≤ 255) :
    ((x * 65536 + (y * 256 + z)) >>> 16) &&& 255 = x ∧
    ((x * 65536 + (y * 256 + z)) >>> 8) &&& 255 = y ∧
    ((x * 65536 + (y * 256 + z)) >>> 0) &&& 255 = z := by
  have hmask : (255 : Nat) = 2 ^ 8 - 1 := rfl
  refine ⟨?_, ?_, ?_⟩ <;>
  · rw [Nat.shiftRight_eq_div_pow, hmask, Nat.and_pow_two_sub_one_eq_mod]
    norm_num
    omega

/-- Left-commutativity of `|||` on `Nat`. -/
lemma nat_lor_left_comm (a b c : Nat) : a ||| (b ||| c) = b ||| (a ||| c) := by
  rw [← Nat.lor_assoc, Nat.lor_comm a b, Nat.lor_assoc]

/-- For each of the six three-letter mode shift assignments, the packed word
built by `set_pixel` fits in 32 bits and each channel is recovered by its own
shift and the 0xFF mask. -/
lemma packed_extract (r g b : Nat) (shR shG shB : Nat)
    (hperm : (shR, shG, shB) ∈ [((16 : Nat), (8 : Nat), (0 : Nat)),
      (16, 0, 8), (8, 16, 0), (0, 16, 8), (8, 0, 16), (0, 8, 16)])
    (hr : r ≤ 255) (hg : g ≤ 255) (hb : b ≤ 255) :
    ((b <<< shB ||| r <<< shR) ||| g <<< shG) < WORD_MOD ∧
    ((((b <<< shB ||| r <<< shR) ||| g <<< shG) >>> shR) &&& 255) = r ∧
    ((((b <<< shB ||| r <<< shR) ||| g <<< shG) >>> shG) &&& 255) = g ∧
    ((((b <<< shB ||| r <<< shR) ||| g <<< shG) >>> shB) &&& 255) = b := by
  simp only [List.mem_cons, List.not_mem_nil, or_false, Prod.mk.injEq] at hperm
  rcases hperm with ⟨e1, e2, e3⟩ | ⟨e1, e2, e3⟩ | ⟨e1, e2, e3⟩ | ⟨e1, e2, e3⟩ |
    ⟨e1, e2, e3⟩ | ⟨e1, e2, e3⟩ <;> subst e1 <;> subst e2 <;> subst e3
  · have hv : (b <<< 0 ||| r <<< 16) ||| g <<< 8 = r * 65536 + (g * 256 + b) := by
      rw [Nat.shiftLeft_zero, Nat.lor_comm b (r <<< 16), Nat.lor_assoc,
        Nat.lor_comm b (g <<< 8), bytes_pack r g b hg hb]
    rw [hv]
    have he := bytes_extract r g b hr hg hb
    exact ⟨by unfold WORD_MOD; omega, he.1, he.2.1, he.2.2⟩
  · have hv : (b <<< 8 ||| r <<< 16) ||| g <<< 0 = r * 65536 + (b * 256 + g) := by
      rw [Nat.shiftLeft_zero, Nat.lor_comm (b <<< 8) (r <<< 16), Nat.lor_assoc,
        bytes_pack r b g hb hg]
    rw [hv]
    have he := bytes_extract r b g hr hb hg
    exact ⟨by unfold WORD_MOD; omega, he.1, he.2.2, he.2.1⟩
  · have hv : (b <<< 0 ||| r <<< 8) ||| g <<< 16 = g * 65536 + (r * 256 + b) := by
      rw [Nat.shiftLeft_zero, Nat.lor_comm _ (g <<< 16), Nat.lor_comm b (r <<< 8),
        bytes_pack g r b hr hb]
    rw [hv]
    have he := bytes_extract g r b hg hr hb
    exact ⟨by unfold WORD_MOD; omega, he.2.1, he.1, he.2.2⟩
  · have hv : (b <<< 8 ||| r <<< 0) ||| g <<< 16 = g * 65536 + (b * 256 + r) := by
      rw [Nat.shiftLeft_zero, Nat.lor_comm _ (g <<< 16), bytes_pack g b r hb hr]
    rw [hv]
    have he := bytes_extract g b r hg hb hr
    exact ⟨by unfold WORD_MOD; omega, he.2.2, he.1, he.2.1⟩
  · have hv : (b <<< 16 ||| r <<< 8) ||| g <<< 0 = b * 65536 + (r * 256 + g) := by
      rw [Nat.shiftLeft_zero, Nat.lor_assoc, bytes_pack b r g hr hg]
    rw [hv]
    have he := bytes_extract b r g hb hr hg
    exact ⟨by unfold WORD_MOD; omega, he.2.1, he.2.2, he.1⟩
  · have hv : (b <<< 16 ||| r <<< 0) ||| g <<< 8 = b * 65536 + (g * 256 + r) := by
      rw [Nat.shiftLeft_zero, Nat.lor_assoc, Nat.lor_comm r (g <<< 8),
        bytes_pack b g r hg hr]
    rw [hv]
    have he := bytes_extract b g r hb hg hr
    exact ⟨by unfold WORD_MOD; omega, he.2.2, he.2.1, he.1⟩

/-- Four disjoint byte fields combined with `|||` add up. -/
lemma bytes_pack4 (x y z w : Nat) (hy : y ≤ 255) (hz : z ≤ 255) (hw : w ≤ 255) :
    x <<< 24 ||| (y <<< 16 ||| (z <<< 8 ||| w))
      = x * 16777216 + (y * 65536 + (z * 256 + w)) := by
  have h1 : z <<< 8 ||| w = 2 ^ 8 * z + w := by
    rw [Nat.shiftLeft_eq, mul_comm]
    exact (Nat.mul_add_lt_is_or (by omega) z).symm
  have h2 : y <<< 16 ||| (2 ^ 8 * z + w) = 2 ^ 16 * y + (2 ^ 8 * z + w) := by
    rw [Nat.shiftLeft_eq, mul_comm]
    exact (Nat.mul_add_lt_is_or (by omega) y).symm
  have h3 : x <<< 24 ||| (2 ^ 16 * y + (2 ^ 8 * z + w))
      = 2 ^ 24 * x + (2 ^ 16 * y + (2 ^ 8 * z + w)) := by
    rw [Nat.shiftLeft_eq, mul_comm]
    exact (Nat.mul_add_lt_is_or (by omega) x).symm
  rw [h1, h2, h3]
  omega

/-- Byte extraction from a packed four-byte word. -/
lemma bytes_extract4 (x y z w : Nat) (hx : x ≤ 255) (hy : y ≤ 255) (hz : z ≤ 255)
    (hw : w ≤ 255) :
    ((x * 16777216 + (y * 65536 + (z * 256 + w))) >>> 24) &&& 255 = x ∧
    ((x * 16777216 + (y * 65536 + (z * 256 + w))) >>> 16) &&& 255 = y ∧
    ((x * 16777216 + (y * 65536 + (z * 256 + w))) >>> 8) &&& 255 = z ∧
    ((x * 16777216 + (y * 65536 + (z * 256 + w))) >>> 0) &&& 255 = w := by
  have hmask : (255 : Nat) = 2 ^ 8 - 1 := rfl
  refine ⟨?_, ?_, ?_, ?_⟩ <;>
  · rw [Nat.shiftRight_eq_div_pow, hmask, Nat.and_pow_two_sub_one_eq_mod]
    norm_num
    omega

/-- Every three-letter-mode shift tuple has nonnegative components. -/
lemma mem_shift3_nonneg : ∀ t ∈ shift3Perms,
    0 ≤ t.1 ∧ 0 ≤ t.2.1 ∧ 0 ≤ t.2.2.1 ∧ 0 ≤ t.2.2.2 := by decide

/-- The `Int.toNat` images of the three-letter-mode shift triples. -/
lemma mem_shift3_toNat : ∀ t ∈ shift3Perms,
    (t.1.toNat, t.2.1.toNat, t.2.2.1.toNat) ∈
      [((16 : Nat), (8 : Nat), (0 : Nat)), (16, 0, 8), (8, 16, 0), (0, 16, 8),
       (8, 0, 16), (0, 8, 16)] := by decide

/-- Every four-letter-mode shift tuple has nonnegative components. -/
lemma mem_shift4_nonneg : ∀ t ∈ shift4Perms,
    0 ≤ t.1 ∧ 0 ≤ t.2.1 ∧ 0 ≤ t.2.2.1 ∧ 0 ≤ t.2.2.2 := by decide

/-- The `Int.toNat` images of the four-letter-mode shift tuples. -/
lemma mem_shift4_toNat : ∀ t ∈ shift4Perms,
    (t.1.toNat, t.2.1.toNat, t.2.2.1.toNat, t.2.2.2.toNat) ∈ natShift4Perms := by decide

/-- For each of the 24 four-letter mode shift assignments, the packed word
built by `set_pixel` fits in 32 bits and each of the four channels is
recovered by its own shift and the 0xFF mask. -/
lemma packed_extract4 (r g b w : Nat) (shR shG shB shW : Nat)
    (hperm : (shR, shG, shB, shW) ∈ natShift4Perms)
    (hr : r ≤ 255) (hg : g ≤ 255) (hb : b ≤ 255) (hw : w ≤ 255) :
    ((w <<< shW ||| b <<< shB) ||| r <<< shR) ||| g <<< shG < WORD_MOD ∧
    ((((w <<< shW ||| b <<< shB) ||| r <<< shR) ||| g <<< shG) >>> shR) &&& 255 = r ∧
    ((((w <<< shW ||| b <<< shB) ||| r <<< shR) ||| g <<< shG) >>> shG) &&& 255 = g ∧
    ((((w <<< shW ||| b <<< shB) ||| r <<< shR) ||| g <<< shG) >>> shB) &&& 255 = b ∧
    ((((w <<< shW ||| b <<< shB) ||| r <<< shR) ||| g <<< shG) >>> shW) &&& 255 = w := by
  simp only [natShift4Perms, List.mem_cons, List.not_mem_nil, or_false,
    Prod.mk.injEq] at hperm
  rcases hperm with ⟨e1, e2, e3, e4⟩ |
    ⟨e1, e2, e3, e4⟩ |
    ⟨e1, e2, e3, e4⟩ |
    ⟨e1, e2, e3, e4⟩ |
    ⟨e1, e2, e3, e4⟩ |
    ⟨e1, e2, e3, e4⟩ |
    ⟨e1, e2, e3, e4⟩ |
    ⟨e1, e2, e3, e4⟩ |
    ⟨e1, e2, e3, e4⟩ |
    ⟨e1, e2, e3, e4⟩ |
    ⟨e1, e2, e3, e4⟩ |
    ⟨e1, e2, e3, e4⟩ |
    ⟨e1, e2, e3, e4⟩ |
    ⟨e1, e2, e3, e4⟩ |
    ⟨e1, e2, e3, e4⟩ |
    ⟨e1, e2, e3, e4⟩ |
    ⟨e1, e2, e3, e4⟩ |
    ⟨e1, e2, e3, e4⟩ |
    ⟨e1, e2, e3, e4⟩ |
    ⟨e1, e2, e3, e4⟩ |
    ⟨e1, e2, e3, e4⟩ |
    ⟨e1, e2, e3, e4⟩ |
    ⟨e1, e2, e3, e4⟩ |
    ⟨e1, e2, e3, e4⟩ <;> subst e1 <;> subst e2 <;> subst e3 <;> subst e4
  · have hv : (w <<< 0 ||| b <<< 8) ||| r <<< 24 ||| g <<< 16
        = r <<< 24 ||| (g <<< 16 ||| (b <<< 8 ||| w)) := by
      simp only [Nat.shiftLeft_zero, Nat.lor_comm, Nat.lor_assoc, nat_lor_left_comm]
    rw [hv, bytes_pack4 r g b w hg hb hw]
    have he := bytes_extract4 r g b w hr hg hb hw
    exact ⟨by unfold WORD_MOD; omega, he.1, he.2.1, he.2.2.1, he.2.2.2⟩
  · have hv : (w <<< 8 ||| b <<< 0) ||| r <<< 24 ||| g <<< 16
        = r <<< 24 ||| (g <<< 16 ||| (w <<< 8 ||| b)) := by
      simp only [Nat.shiftLeft_zero, Nat.lor_comm, Nat.lor_assoc, nat_lor_left_comm]
    rw [hv, bytes_pack4 r g w b hg hw hb]
    have he := bytes_extract4 r g w b hr hg hw hb
    exact ⟨by unfold WORD_MOD; omega, he.1, he.2.1, he.2.2.2, he.2.2.1⟩
  · have hv : (w <<< 0 ||| b <<< 16) ||| r <<< 24 ||| g <<< 8
        = r <<< 24 ||| (b <<< 16 ||| (g <<< 8 ||| w)) := by
      simp only [Nat.shiftLeft_zero, Nat.lor_comm, Nat.lor_assoc, nat_lor_left_comm]
    rw [hv, bytes_pack4 r b g w hb hg hw]
    have he := bytes_extract4 r b g w hr hb hg hw
    exact ⟨by unfold WORD_MOD; omega, he.1, he.2.2.1, he.2.1, he.2.2.2⟩
  · have hv : (w <<< 16 ||| b <<< 0) ||| r <<< 24 ||| g <<< 8
        = r <<< 24 ||| (w <<< 16 ||| (g <<< 8 ||| b)) := by
      simp only [Nat.shiftLeft_zero, Nat.lor_comm, Nat.lor_assoc, nat_lor_left_comm]
    rw [hv, bytes_pack4 r w g b hw hg hb]
    have he := bytes_extract4 r w g b hr hw hg hb
    exact ⟨by unfold WORD_MOD; omega, he.1, he.2.2.1, he.2.2.2, he.2.1⟩
  · have hv : (w <<< 8 ||| b <<< 16) ||| r <<< 24 ||| g <<< 0
        = r <<< 24 ||| (b <<< 16 ||| (w <<< 8 ||| g)) := by
      simp only [Nat.shiftLeft_zero, Nat.lor_comm, Nat.lor_assoc, nat_lor_left_comm]
    rw [hv, bytes_pack4 r b w g hb hw hg]
    have he := bytes_extract4 r b w g hr hb hw hg
    exact ⟨by unfold WORD_MOD; omega, he.1, he.2.2.2, he.2.1, he.2.2.1⟩
  · have hv : (w <<< 16 ||| b <<< 8) ||| r <<< 24 ||| g <<< 0
        = r <<< 24 ||| (w <<< 16 ||| (b <<< 8 ||| g)) := by
      simp only [Nat.shiftLeft_zero, Nat.lor_comm, Nat.lor_assoc, nat_lor_left_comm]
    rw [hv, bytes_pack4 r w b g hw hb hg]
    have he := bytes_extract4 r w b g hr hw hb hg
    exact ⟨by unfold WORD_MOD; omega, he.1, he.2.2.2, he.2.2.1, he.2.1⟩
  · have hv : (w <<< 0 ||| b <<< 8) ||| r <<< 16 ||| g <<< 24
        = g <<< 24 ||| (r <<< 16 ||| (b <<< 8 ||| w)) := by
      simp only [Nat.shiftLeft_zero, Nat.lor_comm, Nat.lor_assoc, nat_lor_left_comm]
    rw [hv, bytes_pack4 g r b w hr hb hw]
    have he := bytes_extract4 g r b w hg hr hb hw
    exact ⟨by unfold WORD_MOD; omega, he.2.1, he.1, he.2.2.1, he.2.2.2⟩
  · have hv : (w <<< 8 ||| b <<< 0) ||| r <<< 16 ||| g <<< 24
        = g <<< 24 ||| (r <<< 16 ||| (w <<< 8 ||| b)) := by
      simp only [Nat.shiftLeft_zero, Nat.lor_comm, Nat.lor_assoc, nat_lor_left_comm]
    rw [hv, bytes_pack4 g r w b hr hw hb]
    have he := bytes_extract4 g r w b hg hr hw hb
    exact ⟨by unfold WORD_MOD; omega, he.2.1, he.1, he.2.2.2, he.2.2.1⟩
  · have hv : (w <<< 0 ||| b <<< 24) ||| r <<< 16 ||| g <<< 8
        = b <<< 24 ||| (r <<< 16 ||| (g <<< 8 ||| w)) := by
      simp only [Nat.shiftLeft_zero, Nat.lor_comm, Nat.lor_assoc, nat_lor_left_comm]
    rw [hv, bytes_pack4 b r g w hr hg hw]
    have he := bytes_extract4 b r g w hb hr hg hw
    exact ⟨by unfold WORD_MOD; omega, he.2.1, he.2.2.1, he.1, he.2.2.2⟩
  · have hv : (w <<< 24 ||| b <<< 0) ||| r <<< 16 ||| g <<< 8
        = w <<< 24 ||| (r <<< 16 ||| (g <<< 8 ||| b)) := by
      simp only [Nat.shiftLeft_zero, Nat.lor_comm, Nat.lor_assoc, nat_lor_left_comm]
    rw [hv, bytes_pack4 w r g b hr hg hb]
    have he := bytes_extract4 w r g b hw hr hg hb
    exact ⟨by unfold WORD_MOD; omega, he.2.1, he.2.2.1, he.2.2.2, he.1⟩
  · have hv : (w <<< 8 ||| b <<< 24) ||| r <<< 16 ||| g <<< 0
        = b <<< 24 ||| (r <<< 16 ||| (w <<< 8 ||| g)) := by
      simp only [Nat.shiftLeft_zero, Nat.lor_comm, Nat.lor_assoc, nat_lor_left_comm]
    rw [hv, bytes_pack4 b r w g hr hw hg]
    have he := bytes_extract4 b r w g hb hr hw hg
    exact ⟨by unfold WORD_MOD; omega, he.2.1, he.2.2.2, he.1, he.2.2.1⟩
  · have hv : (w <<< 24 ||| b <<< 8) ||| r <<< 16 ||| g <<< 0
        = w <<< 24 ||| (r <<< 16 ||| (b <<< 8 ||| g)) := by
      simp only [Nat.shiftLeft_zero, Nat.lor_comm, Nat.lor_assoc, nat_lor_left_comm]
    rw [hv, bytes_pack4 w r b g hr hb hg]
    have he := bytes_extract4 w r b g hw hr hb hg
    exact ⟨by unfold WORD_MOD; omega, he.2.1, he.2.2.2, he.2.2.1, he.1⟩
  · have hv : (w <<< 0 ||| b <<< 16) ||| r <<< 8 ||| g <<< 24
        = g <<< 24 ||| (b <<< 16 ||| (r <<< 8 ||| w)) := by
      simp only [Nat.shiftLeft_zero, Nat.lor_comm, Nat.lor_assoc, nat_lor_left_comm]
    rw [hv, bytes_pack4 g b r w hb hr hw]
    have he := bytes_extract4 g b r w hg hb hr hw
    exact ⟨by unfold WORD_MOD; omega, he.2.2.1, he.1, he.2.1, he.2.2.2⟩
  · have hv : (w <<< 16 ||| b <<< 0) ||| r <<< 8 ||| g <<< 24
        = g <<< 24 ||| (w <<< 16 ||| (r <<< 8 ||| b)) := by
      simp only [Nat.shiftLeft_zero, Nat.lor_comm, Nat.lor_assoc, nat_lor_left_comm]
    rw [hv, bytes_pack4 g w r b hw hr hb]
    have he := bytes_extract4 g w r b hg hw hr hb
    exact ⟨by unfold WORD_MOD; omega, he.2.2.1, he.1, he.2.2.2, he.2.1⟩
  · have hv : (w <<< 0 ||| b <<< 24) ||| r <<< 8 ||| g <<< 16
        = b <<< 24 ||| (g <<< 16 ||| (r <<< 8 ||| w)) := by
      simp only [Nat.shiftLeft_zero, Nat.lor_comm, Nat.lor_assoc, nat_lor_left_comm]
    rw [hv, bytes_pack4 b g r w hg hr hw]
    have he := bytes_extract4 b g r w hb hg hr hw
    exact ⟨by unfold WORD_MOD; omega, he.2.2.1, he.2.1, he.1, he.2.2.2⟩
  · have hv : (w <<< 24 ||| b <<< 0) ||| r <<< 8 ||| g <<< 16
        = w <<< 24 ||| (g <<< 16 ||| (r <<< 8 ||| b)) := by
      simp only [Nat.shiftLeft_zero, Nat.lor_comm, Nat.lor_assoc, nat_lor_left_comm]
    rw [hv, bytes_pack4 w g r b hg hr hb]
    have he := bytes_extract4 w g r b hw hg hr hb
    exact ⟨by unfold WORD_MOD; omega, he.2.2.1, he.2.1, he.2.2.2, he.1⟩
  · have hv : (w <<< 16 ||| b <<< 24) ||| r <<< 8 ||| g <<< 0
        = b <<< 24 ||| (w <<< 16 ||| (r <<< 8 ||| g)) := by
      simp only [Nat.shiftLeft_zero, Nat.lor_comm, Nat.lor_assoc, nat_lor_left_comm]
    rw [hv, bytes_pack4 b w r g hw hr hg]
    have he := bytes_extract4 b w r g hb hw hr hg
    exact ⟨by unfold WORD_MOD; omega, he.2.2.1, he.2.2.2, he.1, he.2.1⟩
  · have hv : (w <<< 24 ||| b <<< 16) ||| r <<< 8 ||| g <<< 0
        = w <<< 24 ||| (b <<< 16 ||| (r <<< 8 ||| g)) := by
      simp only [Nat.shiftLeft_zero, Nat.lor_comm, Nat.lor_assoc, nat_lor_left_comm]
    rw [hv, bytes_pack4 w b r g hb hr hg]
    have he := bytes_extract4 w b r g hw hb hr hg
    exact ⟨by unfold WORD_MOD; omega, he.2.2.1, he.2.2.2, he.2.1, he.1⟩
  · have hv : (w <<< 8 ||| b <<< 16) ||| r <<< 0 ||| g <<< 24
        = g <<< 24 ||| (b <<< 16 ||| (w <<< 8 ||| r)) := by
      simp only [Nat.shiftLeft_zero, Nat.lor_comm, Nat.lor_assoc, nat_lor_left_comm]
    rw [hv, bytes_pack4 g b w r hb hw hr]
    have he := bytes_extract4 g b w r hg hb hw hr
    exact ⟨by unfold WORD_MOD; omega, he.2.2.2, he.1, he.2.1, he.2.2.1⟩
  · have hv : (w <<< 16 ||| b <<< 8) ||| r <<< 0 ||| g <<< 24
        = g <<< 24 ||| (w <<< 16 ||| (b <<< 8 ||| r)) := by
      simp only [Nat.shiftLeft_zero, Nat.lor_comm, Nat.lor_assoc, nat_lor_left_comm]
    rw [hv, bytes_pack4 g w b r hw hb hr]
    have he := bytes_extract4 g w b r hg hw hb hr
    exact ⟨by unfold WORD_MOD; omega, he.2.2.2, he.1, he.2.2.1, he.2.1⟩
  · have hv : (w <<< 8 ||| b <<< 24) ||| r <<< 0 ||| g <<< 16
        = b <<< 24 ||| (g <<< 16 ||| (w <<< 8 ||| r)) := by
      simp only [Nat.shiftLeft_zero, Nat.lor_comm, Nat.lor_assoc, nat_lor_left_comm]
    rw [hv, bytes_pack4 b g w r hg hw hr]
    have he := bytes_extract4 b g w r hb hg hw hr
    exact ⟨by unfold WORD_MOD; omega, he.2.2.2, he.2.1, he.1, he.2.2.1⟩
  · have hv : (w <<< 24 ||| b <<< 8) ||| r <<< 0 ||| g <<< 16
        = w <<< 24 ||| (g <<< 16 ||| (b <<< 8 ||| r)) := by
      simp only [Nat.shiftLeft_zero, Nat.lor_comm, Nat.lor_assoc, nat_lor_left_comm]
    rw [hv, bytes_pack4 w g b r hg hb hr]
    have he := bytes_extract4 w g b r hw hg hb hr
    exact ⟨by unfold WORD_MOD; omega, he.2.2.2, he.2.1, he.2.2.1, he.1⟩
  · have hv : (w <<< 16 ||| b <<< 24) ||| r <<< 0 ||| g <<< 8
        = b <<< 24 ||| (w <<< 16 ||| (g <<< 8 ||| r)) := by
      simp only [Nat.shiftLeft_zero, Nat.lor_comm, Nat.lor_assoc, nat_lor_left_comm]
    rw [hv, bytes_pack4 b w g r hw hg hr]
    have he := bytes_extract4 b w g r hb hw hg hr
    exact ⟨by unfold WORD_MOD; omega, he.2.2.2, he.2.2.1, he.1, he.2.1⟩
  · have hv : (w <<< 24 ||| b <<< 16) ||| r <<< 0 ||| g <<< 8
        = w <<< 24 ||| (b <<< 16 ||| (g <<< 8 ||| r)) := by
      simp only [Nat.shiftLeft_zero, Nat.lor_comm, Nat.lor_assoc, nat_lor_left_comm]
    rw [hv, bytes_pack4 w b g r hb hg hr]
    have he := bytes_extract4 w b g r hw hb hg hr
    exact ⟨by unfold WORD_MOD; omega, he.2.2.2, he.2.2.1, he.2.1, he.1⟩

/-- C4 amended: for a well-formed buffer - three-channel with any of the six
valid mode shift assignments and a 3-tuple, or four-channel with any of the
24 valid mode shift assignments and a 4-tuple - every valid index, every
brightness in `[125, 255]` held fixed across both calls, and every color
with components in `[0,255]`, `set_pixel` then `get_pixel` returns the color
component-wise within plus or minus 1.  (For brightness below 125 the claim
fails, see the counterexample.) -/
theorem C4_amended_roundtrip (s : Neopixel) (i : Int) (c1 c2 c3 c4 : Nat)
    (hInv : BufInv s)
    (hb1 : 125 ≤ s.brightnessvalue) (hb2 : s.brightnessvalue ≤ 255)
    (hi0 : 0 ≤ i) (hi1 : i < s.num_leds)
    (hc1 : c1 ≤ 255) (hc2 : c2 ≤ 255) (hc3 : c3 ≤ 255) (hc4 : c4 ≤ 255) :
    (s.W_in_mode = false → s.shift ∈ shift3Perms →
      withinOne ((s.set_pixel (.idx i) [c1, c2, c3] none).bind (fun s2 => s2.get_pixel i))
        [c1, c2, c3] = true) ∧
    (s.W_in_mode = true → s.shift ∈ shift4Perms →
      withinOne ((s.set_pixel (.idx i) [c1, c2, c3, c4] none).bind (fun s2 => s2.get_pixel i))
        [c1, c2, c3, c4] = true) := by
  obtain ⟨ho, hlen, hn⟩ := hInv
  have hval0 : 0 ≤ i + (s.offset : Int) := by omega
  have hval1 : i + (s.offset : Int) < (s.pixels.length : Int) := by omega
  constructor
  · intro hW hsh
    have hshn : ShNonneg s := mem_shift3_nonneg s.shift hsh
    have hperm6 := mem_shift3_toNat s.shift hsh
    rw [set_pixel_idx_eq s i [c1, c2, c3] none hshn, pySet_valid _ _ _ hval0 hval1]
    dsimp only [Except.map, Except.bind]
    have hread : pyGet (s.pixels.set (i + (s.offset : Int)).toNat
        (pixVal s [c1, c2, c3] (Option.getD none s.brightness) % WORD_MOD))
        (i + (s.offset : Int))
        = .ok (pixVal s [c1, c2, c3] (Option.getD none s.brightness) % WORD_MOD) := by
      rw [pyGet_valid _ _ hval0 (by rw [List.length_set]; exact hval1)]
      rw [List.getD_eq_getElem?_getD, List.getElem?_set_self (by omega)]
      rfl
    rw [get_pixel_ok_eq (s.withPixelsInPlace (s.pixels.set (i + (s.offset : Int)).toNat
      (pixVal s [c1, c2, c3] (Option.getD none s.brightness) % WORD_MOD))) i
      (pixVal s [c1, c2, c3] (Option.getD none s.brightness) % WORD_MOD) hshn hread]
    dsimp only [Neopixel.withPixelsInPlace, Neopixel.brightness]
    simp only [hW, Bool.false_eq_true, if_false]
    simp only [pixVal, Option.getD, Neopixel.brightness, hW, Bool.false_eq_true, and_false,
      if_false, List.getD_cons_zero, List.getD_cons_succ, Nat.zero_shiftLeft, Nat.zero_or]
    obtain ⟨hlt, heR, heG, heB⟩ := packed_extract
      (roundScale c1 s.brightnessvalue) (roundScale c2 s.brightnessvalue)
      (roundScale c3 s.brightnessvalue)
      s.shift.1.toNat s.shift.2.1.toNat s.shift.2.2.1.toNat hperm6
      (roundScale_le _ _ hc1 hb2) (roundScale_le _ _ hc2 hb2) (roundScale_le _ _ hc3 hb2)
    rw [Nat.mod_eq_of_lt hlt, heR, heG, heB]
    have t1 := chan_roundtrip c1 s.brightnessvalue hc1 hb1 hb2
    have t2 := chan_roundtrip c2 s.brightnessvalue hc2 hb1 hb2
    have t3 := chan_roundtrip c3 s.brightnessvalue hc3 hb1 hb2
    simp [withinOne]
    exact ⟨⟨t1.1, t1.2⟩, ⟨t2.1, t2.2⟩, ⟨t3.1, t3.2⟩⟩
  · intro hW hsh
    have hshn : ShNonneg s := mem_shift4_nonneg s.shift hsh
    have hperm24 := mem_shift4_toNat s.shift hsh
    rw [set_pixel_idx_eq s i [c1, c2, c3, c4] none hshn, pySet_valid _ _ _ hval0 hval1]
    dsimp only [Except.map, Except.bind]
    have hread : pyGet (s.pixels.set (i + (s.offset : Int)).toNat
        (pixVal s [c1, c2, c3, c4] (Option.getD none s.brightness) % WORD_MOD))
        (i + (s.offset : Int))
        = .ok (pixVal s [c1, c2, c3, c4] (Option.getD none s.brightness) % WORD_MOD) := by
      rw [pyGet_valid _ _ hval0 (by rw [List.length_set]; exact hval1)]
      rw [List.getD_eq_getElem?_getD, List.getElem?_set_self (by omega)]
      rfl
    rw [get_pixel_ok_eq (s.withPixelsInPlace (s.pixels.set (i + (s.offset : Int)).toNat
      (pixVal s [c1, c2, c3, c4] (Option.getD none s.brightness) % WORD_MOD))) i
      (pixVal s [c1, c2, c3, c4] (Option.getD none s.brightness) % WORD_MOD) hshn hread]
    dsimp only [Neopixel.withPixelsInPlace, Neopixel.brightness]
    simp only [hW, if_true]
    simp only [pixVal, Option.getD, Neopixel.brightness, hW, List.length_cons,
      List.length_nil, eq_self_iff_true, and_true, if_true, List.getD_cons_zero,
      List.getD_cons_succ]
    obtain ⟨hlt, heR, heG, heB, heW⟩ := packed_extract4
      (roundScale c1 s.brightnessvalue) (roundScale c2 s.brightnessvalue)
      (roundScale c3 s.brightnessvalue) (roundScale c4 s.brightnessvalue)
      s.shift.1.toNat s.shift.2.1.toNat s.shift.2.2.1.toNat s.shift.2.2.2.toNat hperm24
      (roundScale_le _ _ hc1 hb2) (roundScale_le _ _ hc2 hb2)
      (roundScale_le _ _ hc3 hb2) (roundScale_le _ _ hc4 hb2)
    rw [Nat.mod_eq_of_lt hlt, heR, heG, heB, heW]
    have t1 := chan_roundtrip c1 s.brightnessvalue hc1 hb1 hb2
    have t2 := chan_roundtrip c2 s.brightnessvalue hc2 hb1 hb2
    have t3 := chan_roundtrip c3 s.brightnessvalue hc3 hb1 hb2
    have t4 := chan_roundtrip c4 s.brightnessvalue hc4 hb1 hb2
    simp [withinOne]
    exact ⟨⟨t1.1, t1.2⟩, ⟨t2.1, t2.2⟩, ⟨t3.1, t3.2⟩, ⟨t4.1, t4.2⟩⟩

/-- Witness for C4 amended: a 2-LED RGB buffer and a 1-LED GRBW buffer, both
at brightness 200. -/
theorem C4_amended_roundtrip_witness :
    withinOne (((Neopixel.mk "RGB" false (16, 8, 0, 0) 2 200 1 [47, 0, 0, 3840]
        [47, 0, 0, 3840] true).set_pixel (.idx 0) [10, 200, 77] none).bind
      (fun s2 => s2.get_pixel 0)) [10, 200, 77] = true ∧
    withinOne (((Neopixel.mk "GRBW" true (16, 24, 8, 0) 1 200 1 [31, 0, 3840]
        [31, 0, 3840] true).set_pixel (.idx 0) [10, 200, 77, 130] none).bind
      (fun s2 => s2.get_pixel 0)) [10, 200, 77, 130] = true :=
  ⟨(C4_amended_roundtrip
      (Neopixel.mk "RGB" false (16, 8, 0, 0) 2 200 1 [47, 0, 0, 3840] [47, 0, 0, 3840] true)
      0 10 200 77 0 (by exact ⟨rfl, rfl, by decide⟩) (by decide) (by decide) (by decide)
      (by decide) (by decide) (by decide) (by decide) (by decide)).1 rfl (by decide),
   (C4_amended_roundtrip
      (Neopixel.mk "GRBW" true (16, 24, 8, 0) 1 200 1 [31, 0, 3840] [31, 0, 3840] true)
      0 10 200 77 130 (by exact ⟨rfl, rfl, by decide⟩) (by decide) (by decide) (by decide)
      (by decide) (by decide) (by decide) (by decide) (by decide)).2 rfl (by decide)⟩
